/-
Verification of the checkout-backend core logic.

Shallow embedding of the two server variants in this repository:
  - src/server.js (Express + Stripe checkout backend with webhook and
    order-confirmation email rendering), and
  - src/unnamed/part_000 (an ES-module variant with a stricter webhook
    and a quantity clamp in buildLineItems).

JavaScript strings are modelled as Lean String (a list of characters);
JavaScript integral numbers as Int.  Catalog data (products.json) is a
parameter of type String -> Option Product.  External calls (Stripe event
construction, JSON parsing, session retrieval + email dispatch) are
oracles passed as function arguments.
-/
import Mathlib

set_option maxHeartbeats 1000000

/-! ## JavaScript string primitives -/

/-- The character class removed by the JavaScript `String.prototype.trim`
(ECMA WhiteSpace plus LineTerminator). -/
def jsWs (c : Char) : Bool :=
  c = ' ' || c = '\t' || c = '\n' || c = '\r' || c = '\x0b' || c = '\x0c' ||
  c = '\u00a0' || c = '\u1680' || c = '\u2000' || c = '\u2001' || c = '\u2002' ||
  c = '\u2003' || c = '\u2004' || c = '\u2005' || c = '\u2006' || c = '\u2007' ||
  c = '\u2008' || c = '\u2009' || c = '\u200a' || c = '\u2028' || c = '\u2029' ||
  c = '\u202f' || c = '\u205f' || c = '\u3000' || c = '\ufeff'

/-- Leading-whitespace removal on the character list. -/
def trimLeftC (l : List Char) : List Char := l.dropWhile jsWs

/-- Trailing-whitespace removal on the character list. -/
def trimRightC (l : List Char) : List Char := (l.reverse.dropWhile jsWs).reverse

/-- JavaScript `s.trim()` on the character list. -/
def jsTrimC (l : List Char) : List Char := trimRightC (trimLeftC l)

/-- JavaScript `s.trim()`. -/
def jsTrim (s : String) : String := ⟨jsTrimC s.data⟩

/-- Scan for the first occurrence of the delimiter `d`; on success return
the characters strictly before it and the characters strictly after it.
This models `s.split(d)[0]` (the first component) and
`s.split(d).slice(1).join(d)` (the remainder after the first occurrence). -/
def splitFirstAux (d : List Char) : List Char → Option (List Char × List Char)
  | [] => none
  | c :: rest =>
    if d.isPrefixOf (c :: rest) then some ([], (c :: rest).drop d.length)
    else
      match splitFirstAux d rest with
      | none => none
      | some (pre, post) => some (c :: pre, post)

/-- The characters before the first occurrence of `d` (the whole list when
`d` does not occur), i.e. `s.split(d)[0]`. -/
def beforeFirst (d : List Char) (l : List Char) : List Char :=
  match splitFirstAux d l with
  | none => l
  | some (pre, _) => pre

/-- The variant delimiter `"--"` used in raw SKUs. -/
def dashDash : List Char := ['-', '-']

/-- Model of normalizeSku in src/server.js:
`if (!rawSku) return ""; return String(rawSku).split("--")[0].trim();` -/
def normalizeSku (s : String) : String :=
  if s = "" then "" else ⟨jsTrimC (beforeFirst dashDash s.data)⟩

/-- Model of extractVariant in src/server.js:
split on the delimiter; when more than one part results, join the rest back
with the delimiter (equivalently: take everything after the first
occurrence), trim it and upper-case it for display. -/
def extractVariant (s : String) : String :=
  match splitFirstAux dashDash s.data with
  | none => ""
  | some (_, post) => ⟨(jsTrimC post).map Char.toUpper⟩

/-- JavaScript `s.replace(pat, "")` (first occurrence only). -/
def replaceFirstEmpty (pat : String) (s : String) : String :=
  match splitFirstAux pat.data s.data with
  | none => s
  | some (pre, post) => ⟨pre ++ post⟩

/-- Decidable substring test on character lists (used to state facts about
rendered HTML). -/
def hasSubList (pat : List Char) : List Char → Bool
  | [] => pat.isPrefixOf []
  | c :: rest => pat.isPrefixOf (c :: rest) || hasSubList pat rest

/-- JavaScript `a || b` for a possibly-absent string `a`: the default is
used when `a` is missing or empty (the empty string is falsy). -/
def jsOrS (a : Option String) (b : String) : String :=
  match a with
  | some s => if s = "" then b else s
  | none => b

/-! ## escapeHtml (src/server.js lines 444-451) -/

/-- JavaScript `s.replaceAll(t, rep)` for a single-character search string:
every occurrence of `t` is a single position, so it is a character-wise
expansion. -/
def replaceAllC (t : Char) (rep : List Char) : List Char → List Char
  | [] => []
  | c :: rest => (if c = t then rep else [c]) ++ replaceAllC t rep rest

/-- The double-quote character. -/
def quotC : Char := Char.ofNat 34

/-- The apostrophe character. -/
def aposC : Char := Char.ofNat 39

/-- Model of the escapeHtml body in src/server.js: the five `replaceAll` passes applied in
source order (ampersand first). -/
def escapeHtmlRaw (l : List Char) : List Char :=
  replaceAllC aposC "&#039;".data
    (replaceAllC quotC "&quot;".data
      (replaceAllC '>' "&gt;".data
        (replaceAllC '<' "&lt;".data
          (replaceAllC '&' "&amp;".data l))))

/-- Model of escapeHtml in src/server.js: `String(s || "")` then the five passes;
`none` models a null/undefined argument. -/
def escapeHtml (s : Option String) : String :=
  ⟨escapeHtmlRaw (jsOrS s "").data⟩

/-- escapeHtml applied to a string that is known to be present. -/
def escapeHtmlS (s : String) : String := escapeHtml (some s)

/-! ## Cart lines, catalog and quantity coercion -/

/-- Coercion outcomes of the client-submitted `qty` field.  `int n` is an
integral numeric value (both `Number(qty)` and `parseInt(qty, 10)` yield
`n` for it); `missing` is an absent field and `invalid` a value whose
numeric coercion is NaN (both coercions yield NaN for these). -/
inductive QtyInput where
  | missing
  | invalid
  | int (n : Int)
deriving DecidableEq, Repr

/-- JavaScript `Number(qty) || 1` on an integral input: NaN and 0 are
falsy and give the default 1. -/
def jsNumberOr1 : QtyInput → Int
  | .int n => if n = 0 then 1 else n
  | _ => 1

/-- JavaScript `parseInt(qty, 10) || 1` on an integral input: NaN and 0
are falsy and give the default 1. -/
def jsParseIntOr1 : QtyInput → Int
  | .int n => if n = 0 then 1 else n
  | _ => 1

/-- JavaScript `Number(p.price) || 0` on an integral price. -/
def jsNumberOr0 (x : Int) : Int := if x = 0 then 0 else x

/-- Quantity normalization in src/server.js (lines 220 and 286):
`Math.max(1, Number(it.qty) || 1)` — a lower clamp only. -/
def serverQty (q : QtyInput) : Int := max 1 (jsNumberOr1 q)

/-- Quantity normalization in src/unnamed/part_000 buildLineItems
(line 48): `Math.max(1, Math.min(99, parseInt(qty, 10) || 1))`. -/
def p0Quantity (q : QtyInput) : Int := max 1 (min 99 (jsParseIntOr1 q))

/-- A client-submitted cart line.  The `price` field is whatever price the
client chose to send along (the wire format allows it); the server must
never read it. -/
structure CartItem where
  sku : String
  qty : QtyInput
  price : Option Int
deriving DecidableEq, Repr

/-- A products.json entry as read by src/server.js: `price` is required
for a sellable product, the remaining attributes are optional. -/
structure Product where
  price : Int
  currency : Option String
  name : Option String
  description : Option String
  image : Option String
deriving DecidableEq, Repr

/-- The product catalog: the PRODUCTS map loaded from products.json. -/
def Catalog := String → Option Product

/-! ## Pricing engine (src/server.js lines 216-271) -/

/-- Model of computeSubtotalCents: for each item, normalize the SKU, clamp
the quantity below by 1, look the base SKU up; a missing catalog entry is
silently skipped (`continue`), otherwise `(Number(p.price) || 0) * qty` is
added. -/
def computeSubtotalCents (products : Catalog) : List CartItem → Int
  | [] => 0
  | it :: rest =>
    match products (normalizeSku it.sku) with
    | none => computeSubtotalCents products rest
    | some p => jsNumberOr0 p.price * serverQty it.qty + computeSubtotalCents products rest

/-- One shipping option as pushed by buildShippingOptions. -/
structure ShippingRateData where
  display_name : String
  rateType : String
  amount : Int
  currency : String
  estimateMinDays : Int
  estimateMaxDays : Int
deriving DecidableEq, Repr

/-- The free tier pushed when the subtotal qualifies. -/
def freeOption : ShippingRateData :=
  { display_name := "Free Shipping (Orders $150+)", rateType := "fixed_amount",
    amount := 0, currency := "usd", estimateMinDays := 2, estimateMaxDays := 5 }

/-- The always-present standard tier. -/
def standardOption : ShippingRateData :=
  { display_name := "Standard (2–5 Days)", rateType := "fixed_amount",
    amount := 1295, currency := "usd", estimateMinDays := 2, estimateMaxDays := 5 }

/-- The always-present express tier. -/
def expressOption : ShippingRateData :=
  { display_name := "Express (1–2 Days)", rateType := "fixed_amount",
    amount := 2999, currency := "usd", estimateMinDays := 1, estimateMaxDays := 2 }

/-- Model of buildShippingOptions (src/server.js lines 228-271): push the
free tier first when `subtotalCents >= 15000`, then always push Standard
and Express in that order. -/
def buildShippingOptions (subtotalCents : Int) : List ShippingRateData :=
  (if subtotalCents ≥ 15000 then [freeOption] else []) ++ [standardOption, expressOption]

/-! ## Checkout-session construction (src/server.js lines 273-348) -/

/-- One Stripe line item as assembled in the request loop, flattening
`price_data`/`product_data`. -/
structure LineItem where
  currency : String
  unit_amount : Int
  name : String
  description : String
  images : List String
  metaSku : String
  metaVariant : Option String
  quantity : Int
deriving DecidableEq, Repr

/-- One iteration of the item loop of POST /create-checkout-session:
trim the raw SKU, split off base SKU and variant, clamp the quantity, look
the base SKU up; a missing entry or falsy price aborts with the
Unknown-or-inactive error; otherwise the line item is priced exclusively
from the catalog entry.  The optional second component is the
`size_<baseSku>` metadata entry recorded when a variant is present. -/
def buildServerLine (products : Catalog) (it : CartItem) :
    Except String (LineItem × Option (String × String)) :=
  let rawSku := jsTrim it.sku
  let baseSku := normalizeSku rawSku
  let variant := extractVariant rawSku
  let qty := serverQty it.qty
  match products baseSku with
  | none => .error ("Unknown or inactive product: " ++ baseSku)
  | some p =>
    if p.price = 0 then .error ("Unknown or inactive product: " ++ baseSku)
    else
      .ok ({ currency := jsOrS p.currency "usd",
             unit_amount := p.price,
             name := jsOrS p.name baseSku,
             description := if variant ≠ "" then "Size: " ++ variant
                            else jsOrS p.description "Apparel",
             images := match p.image with | some i => [i] | none => [],
             metaSku := baseSku,
             metaVariant := if variant ≠ "" then some variant else none,
             quantity := qty },
           if variant ≠ "" then some ("size_" ++ baseSku, variant) else none)

/-- The item loop of POST /create-checkout-session: the first failing item
aborts the whole request (all-or-nothing); on success the line items and
the accumulated `size_` metadata entries are returned in cart order. -/
def buildServerLines (products : Catalog) :
    List CartItem → Except String (List LineItem × List (String × String))
  | [] => .ok ([], [])
  | it :: rest =>
    match buildServerLine products it with
    | .error e => .error e
    | .ok (li, m) =>
      match buildServerLines products rest with
      | .error e => .error e
      | .ok (lis, ms) => .ok (li :: lis, match m with | some kv => kv :: ms | none => ms)

/-- JavaScript `SITE_URL.replace(/\/$/, "")`: remove one trailing slash. -/
def stripTrailingSlash (s : String) : String :=
  match s.data.getLast? with
  | some c => if c = '/' then ⟨s.data.dropLast⟩ else s
  | none => s

/-- The checkout-session request assembled for the payment provider. -/
structure SessionRequest where
  line_items : List LineItem
  shipping_options : List ShippingRateData
  metadata : List (String × String)
  success_url : String
  cancel_url : String
deriving DecidableEq, Repr

/-- Model of POST /create-checkout-session (src/server.js lines 273-348):
reject an empty cart, build the line items from the server-side catalog
(aborting on the first unknown SKU), compute the subtotal over the same
raw items, and assemble the session request with subtotal-derived shipping
options, redirect URLs and flattened metadata. -/
def createCheckoutSession (products : Catalog) (siteUrl : String)
    (items : List CartItem) : Except String SessionRequest :=
  if items.isEmpty then .error "Cart is empty"
  else
    match buildServerLines products items with
    | .error e => .error e
    | .ok (lis, meta) =>
      .ok { line_items := lis,
            shipping_options := buildShippingOptions (computeSubtotalCents products items),
            metadata := ("source", "jhinton-site") :: meta,
            success_url := stripTrailingSlash siteUrl ++ "/success.html?session_id=\x7bCHECKOUT_SESSION_ID\x7d",
            cancel_url := stripTrailingSlash siteUrl ++ "/cancel.html" }

/-- Sum of `unit_amount * quantity` over built line items (the total the
payment provider will charge for the goods). -/
def sumLineTotals : List LineItem → Int
  | [] => 0
  | li :: rest => li.unit_amount * li.quantity + sumLineTotals rest

/-! ## The part_000 variant of line-item construction -/

/-- A products.json entry as read by src/unnamed/part_000 (field
`price_cents` instead of `price`). -/
structure ProductP0 where
  price_cents : Int
  name : String
  image : Option String
deriving DecidableEq, Repr

/-- One line item as assembled by buildLineItems in src/unnamed/part_000. -/
structure LineItemP0 where
  quantity : Int
  currency : String
  unit_amount : Int
  name : String
  images : Option (List String)
  metaSku : String
deriving DecidableEq, Repr

/-- One mapped entry of buildLineItems (src/unnamed/part_000 lines 45-62):
the key is the trimmed raw SKU (no variant splitting in this variant), the
quantity is `Math.max(1, Math.min(99, parseInt(qty, 10) || 1))`, and an
unknown SKU throws. -/
def buildLineItemP0 (catalog : String → Option ProductP0) (currencyEnv : Option String)
    (it : CartItem) : Except String LineItemP0 :=
  let key := jsTrim it.sku
  let quantity := p0Quantity it.qty
  match catalog key with
  | none => .error ("Invalid SKU: " ++ key)
  | some product =>
    .ok { quantity := quantity,
          currency := (jsOrS currencyEnv "usd").toLower,
          unit_amount := product.price_cents,
          name := product.name,
          images := match product.image with | some i => some [i] | none => none,
          metaSku := key }

/-- The map over cart items inside buildLineItems: the first throwing
entry aborts the whole map. -/
def mapBuildP0 (catalog : String → Option ProductP0) (currencyEnv : Option String) :
    List CartItem → Except String (List LineItemP0)
  | [] => .ok []
  | it :: rest =>
    match buildLineItemP0 catalog currencyEnv it with
    | .error e => .error e
    | .ok li =>
      match mapBuildP0 catalog currencyEnv rest with
      | .error e => .error e
      | .ok lis => .ok (li :: lis)

/-- Model of buildLineItems (src/unnamed/part_000 lines 43-63): an empty
cart throws, otherwise the items are mapped and the first throwing entry
aborts the whole map. -/
def buildLineItemsP0 (catalog : String → Option ProductP0) (currencyEnv : Option String)
    (items : List CartItem) : Except String (List LineItemP0) :=
  if items.isEmpty then .error "Cart is empty."
  else mapBuildP0 catalog currencyEnv items

/-! ## Webhook handlers -/

/-- A Stripe event as far as the handlers inspect it: the `type`
discriminator and the id of `event.data.object`. -/
structure StripeEvent where
  eventType : String
  objectId : String
deriving DecidableEq, Repr

/-- The body of the HTTP response a webhook handler sends back. -/
inductive WebhookBody where
  | receivedTrue
  | errorText (msg : String)
deriving DecidableEq, Repr

/-- The observable outcome of one webhook request: the HTTP status and
body, the event the handler constructed and acted on (if any), and whether
the downstream notification (session retrieval + order email) was
attempted. -/
structure WebhookResult where
  status : Nat
  body : WebhookBody
  eventHandled : Option StripeEvent
  notifyAttempted : Bool
deriving DecidableEq, Repr

/-- How src/server.js obtains the event (lines 70-76): with a configured
secret, `stripe.webhooks.constructEvent(rawBody, sig, whsec)`; without
one, the dev fallback `JSON.parse(req.body.toString("utf8"))` on the
unverified body. -/
def webhookEventOf (whsec : Option String) (sig : Option String) (rawBody : String)
    (constructEvent : String → Option String → String → Except String StripeEvent)
    (parseJson : String → Except String StripeEvent) : Except String StripeEvent :=
  match whsec with
  | some secret => constructEvent rawBody sig secret
  | none => parseJson rawBody

/-- Model of POST /webhook in src/server.js (lines 65-99): event
construction failure answers 400; otherwise a completed-checkout event
triggers the downstream notification, whose failure is logged and
swallowed, and the handler answers 200 with the received acknowledgment in
every surviving path. -/
def webhookServerJs (whsec : Option String) (sig : Option String) (rawBody : String)
    (constructEvent : String → Option String → String → Except String StripeEvent)
    (parseJson : String → Except String StripeEvent)
    (retrieveAndEmail : String → Except String Unit) : WebhookResult :=
  match webhookEventOf whsec sig rawBody constructEvent parseJson with
  | .error msg =>
    { status := 400, body := .errorText ("Webhook Error: " ++ msg),
      eventHandled := none, notifyAttempted := false }
  | .ok event =>
    if event.eventType = "checkout.session.completed" then
      match retrieveAndEmail event.objectId with
      | .ok _ =>
        { status := 200, body := .receivedTrue,
          eventHandled := some event, notifyAttempted := true }
      | .error _ =>
        { status := 200, body := .receivedTrue,
          eventHandled := some event, notifyAttempted := true }
    else
      { status := 200, body := .receivedTrue,
        eventHandled := some event, notifyAttempted := false }

/-- Model of POST /webhook in src/unnamed/part_000 (lines 114-136): a
missing signing secret is answered 500 before anything is parsed
(fail-closed); verification failure answers 400; a verified event is
acknowledged with 200 (this variant only logs completed sessions, it sends
no email). -/
def webhookPart000 (whsec : Option String) (sig : Option String) (rawBody : String)
    (constructEvent : String → Option String → String → Except String StripeEvent) :
    WebhookResult :=
  match whsec with
  | none =>
    { status := 500, body := .errorText "Missing STRIPE_WEBHOOK_SECRET",
      eventHandled := none, notifyAttempted := false }
  | some secret =>
    match constructEvent rawBody sig secret with
    | .error msg =>
      { status := 400, body := .errorText ("Webhook Error: " ++ msg),
        eventHandled := none, notifyAttempted := false }
    | .ok event =>
      { status := 200, body := .receivedTrue,
        eventHandled := some event, notifyAttempted := false }

/-! ## Order-confirmation rendering (src/server.js lines 350-442) -/

/-- JavaScript `a || b` for a possibly-absent integral number: NaN-free
model in which 0 is falsy. -/
def jsOrI (a : Option Int) (b : Int) : Int :=
  match a with
  | some n => if n = 0 then b else n
  | none => b

/-- Two-digit rendering of a remainder in [0, 100). -/
def pad2 (r : Int) : String := if r < 10 then "0" ++ toString r else toString r

/-- JavaScript `(cents / 100).toFixed(2)` for a non-negative integral
minor-units amount: the quotient, a dot, and the two-digit remainder. -/
def toFixed2 (cents : Int) : String :=
  toString (cents / 100) ++ "." ++ pad2 (cents % 100)

/-- The shipping address on a completed session, as far as the renderer
reads it (`session.shipping_details.address`). -/
structure SessionAddress where
  line1 : Option String
  line2 : Option String
  city : Option String
  state : Option String
  postal_code : Option String
  country : Option String
deriving DecidableEq, Repr

/-- `session.shipping_details`: recipient name and address. -/
structure ShippingDetails where
  name : Option String
  address : Option SessionAddress
deriving DecidableEq, Repr

/-- One expanded line item of a completed session, flattening the
`li.price.product` chain to the fields the renderer reads. -/
structure SessionLineItem where
  description : Option String
  productName : Option String
  productDescription : Option String
  quantity : Option Int
  unit_amount : Option Int
deriving DecidableEq, Repr

/-- A completed-session record as consumed by sendOrderEmails. -/
structure CompletedSession where
  customerDetailsEmail : Option String
  customerEmail : Option String
  shipping_details : Option ShippingDetails
  line_items : List SessionLineItem
  amount_total : Option Int
  amount_shipping : Option Int
deriving DecidableEq, Repr

/-- JavaScript `s.startsWith(pre)` as a character-list prefix test. -/
def strStartsWith (s pre : String) : Bool := pre.data.isPrefixOf s.data

/-- The variant recovered from the product description:
`li.price?.product?.description?.startsWith("Size:") ?
 li.price.product.description.replace("Size: ", "") : ""`. -/
def lineVariantOf (li : SessionLineItem) : String :=
  match li.productDescription with
  | some d => if strStartsWith d "Size:" then replaceFirstEmpty "Size: " d else ""
  | none => ""

/-- One pushed order line (src/server.js line 371):
`qty × name (variant) — $unit` with the JavaScript fallbacks
`li.description || li.price?.product?.name || "Item"`, `li.quantity || 1`
and `li.price?.unit_amount || 0`. -/
def lineText (li : SessionLineItem) : String :=
  let name := jsOrS li.description (jsOrS li.productName "Item")
  let qty := jsOrI li.quantity 1
  let unit := jsOrI li.unit_amount 0
  let variant := lineVariantOf li
  toString qty ++ " × " ++ name ++
    (if variant ≠ "" then " (" ++ variant ++ ")" else "") ++
    " — $" ++ toFixed2 unit

/-- The joined line divs (src/server.js line 389):
`lines.map(l => <div>escapeHtml(l)</div>).join("")`; the only
interpolated free text is HTML-escaped. -/
def lineDivsChars : List String → List Char
  | [] => []
  | l :: rest => "<div>".data ++ escapeHtmlRaw l.data ++ "</div>".data ++ lineDivsChars rest

/-- The order-details block of the email: the escaped line divs of the
session's line items. -/
def orderDetailsBlock (s : CompletedSession) : String :=
  ⟨lineDivsChars (s.line_items.map lineText)⟩

/-- `session.amount_total ? $.. : "—"`: truthiness check, so a zero total
also renders as the dash. -/
def amountTotalText (s : CompletedSession) : String :=
  match s.amount_total with
  | some n => if n = 0 then "—" else "$" ++ toFixed2 n
  | none => "—"

/-- `session.total_details?.amount_shipping != null ? $.. : "—"`:
a null check, so a zero shipping amount renders as an amount. -/
def amountShippingText (s : CompletedSession) : String :=
  match s.amount_shipping with
  | some n => "$" ++ toFixed2 n
  | none => "—"

/-- The recipient name interpolated into the shipping-address block:
`(ship.name || "").toString()` where `ship = session.shipping_details || \x7b\x7d`. -/
def shipNameText (s : CompletedSession) : String :=
  match s.shipping_details with
  | some sd => jsOrS sd.name ""
  | none => ""

/-- One optional address component: `(addr.f || "").toString()` where
`addr = ship.address || \x7b\x7d`. -/
def addrField (s : CompletedSession) (f : SessionAddress → Option String) : String :=
  match s.shipping_details with
  | some sd =>
    match sd.address with
    | some a => jsOrS (f a) ""
    | none => ""
  | none => ""

/-- Model of the html template of sendOrderEmails (src/server.js lines
379-413).  The line texts pass through escapeHtml; the shipping name and
the six address components are interpolated as-is; the internal contact
address is escaped in the help footer. -/
def renderOrderHtml (s : CompletedSession) (internalTo : String) (year : Nat) : String :=
  "\n    <div style=\"font-family:Arial,sans-serif;max-width:640px;margin:0 auto;padding:24px;color:#111\">\n" ++
  "      <h2 style=\"letter-spacing:.12em;text-transform:uppercase;font-weight:700;margin:0 0 12px\">Order Confirmed</h2>\n" ++
  "      <p style=\"margin:0 0 16px;color:#444;line-height:1.6\">\n" ++
  "        Thank you for your purchase. Your order is confirmed and is being prepared for shipment.\n" ++
  "      </p>\n\n" ++
  "      <div style=\"border:1px solid #e7e7e7;padding:16px;margin:16px 0\">\n" ++
  "        <div style=\"font-weight:700;text-transform:uppercase;letter-spacing:.08em;font-size:12px;margin-bottom:8px\">Order Details</div>\n" ++
  "        <div style=\"font-size:14px;line-height:1.7;color:#333\">\n" ++
  "          " ++ orderDetailsBlock s ++ "\n" ++
  "        </div>\n" ++
  "        <hr style=\"border:none;border-top:1px solid #eee;margin:12px 0\"/>\n" ++
  "        <div style=\"display:flex;justify-content:space-between;font-size:13px;color:#333\"><span>Shipping</span><span>" ++
  amountShippingText s ++ "</span></div>\n" ++
  "        <div style=\"display:flex;justify-content:space-between;font-size:13px;color:#333;margin-top:6px\"><span>Total</span><span style=\"font-weight:800\">" ++
  amountTotalText s ++ "</span></div>\n" ++
  "      </div>\n\n" ++
  "      <div style=\"border:1px solid #e7e7e7;padding:16px;margin:16px 0\">\n" ++
  "        <div style=\"font-weight:700;text-transform:uppercase;letter-spacing:.08em;font-size:12px;margin-bottom:8px\">Shipping Address</div>\n" ++
  "        <div style=\"font-size:13px;line-height:1.6;color:#333\">\n" ++
  "          " ++ shipNameText s ++ "<br/>\n" ++
  "          " ++ addrField s SessionAddress.line1 ++ " " ++ addrField s SessionAddress.line2 ++ "<br/>\n" ++
  "          " ++ addrField s SessionAddress.city ++ ", " ++ addrField s SessionAddress.state ++ " " ++
  addrField s SessionAddress.postal_code ++ "<br/>\n" ++
  "          " ++ addrField s SessionAddress.country ++ "\n" ++
  "        </div>\n" ++
  "      </div>\n\n" ++
  "      <p style=\"font-size:12px;color:#666;line-height:1.6\">\n" ++
  "        Need help? Reply to this email or contact <a href=\"mailto:" ++ escapeHtmlS internalTo ++
  "\" style=\"color:#111;text-decoration:underline\">" ++ escapeHtmlS internalTo ++ "</a>.\n" ++
  "      </p>\n" ++
  "      <p style=\"font-size:11px;color:#888;margin-top:16px;text-transform:uppercase;letter-spacing:.06em\">\n" ++
  "        © " ++ toString year ++ " J.HINTON INC\n" ++
  "      </p>\n" ++
  "    </div>\n  "

/-! ## Demo catalog data used by concrete witnesses and counterexamples -/

/-- A demo catalog entry matching the spec scenario
(price 2000 minor units, currency usd). -/
def demoProduct : Product :=
  { price := 2000, currency := some "usd", name := some "Classic Tee Black",
    description := none, image := none }

/-- A one-entry demo catalog keyed by the base SKU TEE-BLK. -/
def demoCatalog : Catalog :=
  fun s => if s = "TEE-BLK" then some demoProduct else none

/-! ## Claim C5: shipping-option tiering -/

/-- C5: for every integer subtotal, buildShippingOptions returns exactly
the two options Standard then Express when the subtotal is below 15000 and
exactly the three options Free, Standard, Express (Free first) when it is
at least 15000; in particular 14999 excludes the Free tier and 15000
includes it. -/
theorem shippingOptions_tiering :
    (∀ s : Int, s < 15000 → buildShippingOptions s = [standardOption, expressOption]) ∧
    (∀ s : Int, 15000 ≤ s → buildShippingOptions s = [freeOption, standardOption, expressOption]) ∧
    (∀ s : Int, s < 15000 → (buildShippingOptions s).length = 2) ∧
    (∀ s : Int, 15000 ≤ s → (buildShippingOptions s).length = 3) ∧
    buildShippingOptions 14999 = [standardOption, expressOption] ∧
    buildShippingOptions 15000 = [freeOption, standardOption, expressOption] := by
  have hlt : ∀ s : Int, s < 15000 → buildShippingOptions s = [standardOption, expressOption] := by
    intro s hs
    simp only [buildShippingOptions, if_neg (by omega : ¬ s ≥ 15000), List.nil_append]
  have hge : ∀ s : Int, 15000 ≤ s →
      buildShippingOptions s = [freeOption, standardOption, expressOption] := by
    intro s hs
    simp only [buildShippingOptions, if_pos (by omega : s ≥ 15000)]
    rfl
  refine ⟨hlt, hge, ?_, ?_, hlt 14999 (by omega), hge 15000 (by omega)⟩
  · intro s hs; rw [hlt s hs]; rfl
  · intro s hs; rw [hge s hs]; rfl

/-- Witness for C5 at the boundary subtotals 14999 and 15000. -/
theorem shippingOptions_tiering_witness :
    buildShippingOptions 14999 = [standardOption, expressOption] ∧
    buildShippingOptions 15000 = [freeOption, standardOption, expressOption] :=
  ⟨shippingOptions_tiering.1 14999 (by omega),
   shippingOptions_tiering.2.1 15000 (by omega)⟩

/-! ## Claim C8: webhook acknowledgment is independent of downstream failures -/

/-- C8: whenever the event-construction step of the server.js webhook
handler succeeds, the handler responds 200 with the received-true
acknowledgment, for every possible downstream behaviour of session
retrieval and email dispatch — a downstream failure never produces an
error HTTP status. -/
theorem webhook_ack_independent_of_downstream :
    ∀ (whsec sig : Option String) (rawBody : String)
      (constructEvent : String → Option String → String → Except String StripeEvent)
      (parseJson : String → Except String StripeEvent)
      (retrieveAndEmail : String → Except String Unit) (ev : StripeEvent),
      webhookEventOf whsec sig rawBody constructEvent parseJson = .ok ev →
      (webhookServerJs whsec sig rawBody constructEvent parseJson retrieveAndEmail).status = 200 ∧
      (webhookServerJs whsec sig rawBody constructEvent parseJson retrieveAndEmail).body =
        .receivedTrue := by
  intro whsec sig rawBody constructEvent parseJson retrieveAndEmail ev h
  unfold webhookServerJs
  rw [h]
  dsimp only
  by_cases hty : ev.eventType = "checkout.session.completed"
  · rw [if_pos hty]
    cases retrieveAndEmail ev.objectId <;> exact ⟨rfl, rfl⟩
  · rw [if_neg hty]
    exact ⟨rfl, rfl⟩

/-- Witness for C8: a verified completed-session event whose downstream
email dispatch fails is still acknowledged with 200 received-true. -/
theorem webhook_ack_independent_of_downstream_witness :
    (webhookServerJs (some "whsec_test") (some "t=1,v1=abc") "raw-payload"
        (fun _ _ _ => .ok ⟨"checkout.session.completed", "cs_live_1"⟩)
        (fun _ => .error "unused")
        (fun _ => .error "email provider down")).status = 200 ∧
    (webhookServerJs (some "whsec_test") (some "t=1,v1=abc") "raw-payload"
        (fun _ _ _ => .ok ⟨"checkout.session.completed", "cs_live_1"⟩)
        (fun _ => .error "unused")
        (fun _ => .error "email provider down")).body = .receivedTrue :=
  webhook_ack_independent_of_downstream (some "whsec_test") (some "t=1,v1=abc") "raw-payload"
    (fun _ _ _ => .ok ⟨"checkout.session.completed", "cs_live_1"⟩)
    (fun _ => .error "unused")
    (fun _ => .error "email provider down")
    ⟨"checkout.session.completed", "cs_live_1"⟩ rfl

/-! ## Claim C1: fail-open webhook fallback when no secret is configured -/

/-- The unsigned request body used to exhibit the fail-open fallback. -/
def c1Body : String := "\x7b\"type\":\"checkout.session.completed\"\x7d"

/-- The event the unverified body parses to. -/
def c1Event : StripeEvent :=
  { eventType := "checkout.session.completed", objectId := "cs_test_123" }

/-- The JSON-parse oracle for the exhibit body. -/
def c1Parse : String → Except String StripeEvent :=
  fun b => if b = c1Body then .ok c1Event else .error "Unexpected token"

/-- A signature-verification oracle; never consulted on the exhibited
paths because no secret is configured. -/
def c1Construct : String → Option String → String → Except String StripeEvent :=
  fun _ _ _ => .error "No signatures found matching the expected signature for payload"

/-- The downstream notification oracle for the exhibit. -/
def c1Notify : String → Except String Unit := fun _ => .ok ()

/-- C1 (evidence of the code bug): with no webhook signing secret
configured, the server.js handler does not refuse — it parses the
unverified body, constructs an event from it, attempts the downstream
notification and acknowledges 200; the part_000 handler refuses the same
request with 500 and constructs no event. -/
theorem webhook_failOpen_without_secret :
    webhookServerJs none none c1Body c1Construct c1Parse c1Notify =
      { status := 200, body := .receivedTrue,
        eventHandled := some c1Event, notifyAttempted := true } ∧
    webhookPart000 none none c1Body c1Construct =
      { status := 500, body := .errorText "Missing STRIPE_WEBHOOK_SECRET",
        eventHandled := none, notifyAttempted := false } := by
  exact ⟨by decide, rfl⟩

/-! ## Claim C2: quantity normalization -/

/-- The quantity recorded in a successfully built part_000 line item is
the clamped quantity of its cart line. -/
theorem buildLineItemP0_quantity (catalog : String → Option ProductP0)
    (currencyEnv : Option String) (it : CartItem) (li : LineItemP0)
    (h : buildLineItemP0 catalog currencyEnv it = .ok li) :
    li.quantity = p0Quantity it.qty := by
  simp only [buildLineItemP0] at h
  cases hc : catalog (jsTrim it.sku)
  case none =>
    rw [hc] at h
    exact absurd h (by simp)
  case some p =>
    rw [hc] at h
    simp only [Except.ok.injEq] at h
    subst h
    rfl

/-- Every line item in a successful part_000 map has its quantity equal to
the clamp of the corresponding submitted quantity. -/
theorem mapBuildP0_quantity (catalog : String → Option ProductP0)
    (currencyEnv : Option String) :
    ∀ (items : List CartItem) (lis : List LineItemP0),
      mapBuildP0 catalog currencyEnv items = .ok lis →
      ∀ li ∈ lis, ∃ it ∈ items, li.quantity = p0Quantity it.qty := by
  intro items
  induction items with
  | nil =>
    intro lis h li hli
    simp only [mapBuildP0, Except.ok.injEq] at h
    subst h
    cases hli
  | cons it rest ih =>
    intro lis h li hli
    simp only [mapBuildP0] at h
    cases h1 : buildLineItemP0 catalog currencyEnv it
    case error => rw [h1] at h; exact absurd h (by simp)
    case ok li0 =>
    rw [h1] at h
    cases h2 : mapBuildP0 catalog currencyEnv rest
    case error => rw [h2] at h; exact absurd h (by simp)
    case ok lis2 =>
    rw [h2] at h
    simp only [Except.ok.injEq] at h
    subst h
    rcases List.mem_cons.mp hli with rfl | hmem
    · exact ⟨it, List.mem_cons_self it rest,
        buildLineItemP0_quantity catalog currencyEnv it _ h1⟩
    · obtain ⟨it', hit', hq⟩ := ih _ h2 li hmem
      exact ⟨it', List.mem_cons_of_mem it hit', hq⟩

/-- C2 (amended): in the part_000 variant, buildLineItems parses the
submitted quantity as an integer, defaults it to 1 when missing or
invalid, and clamps it into [1, 99] for all inputs — non-positive values
clamp up to 1, values above 99 clamp down to 99, and in-range values pass
through; consequently every line item produced by buildLineItemsP0 has a
quantity in [1, 99].  (The server.js handler lacks the upper clamp; see
the counterexample theorem.) -/
theorem p0_quantity_clamped :
    (∀ q : QtyInput, 1 ≤ p0Quantity q ∧ p0Quantity q ≤ 99) ∧
    p0Quantity .missing = 1 ∧
    p0Quantity .invalid = 1 ∧
    (∀ n : Int, n ≤ 0 → p0Quantity (.int n) = 1) ∧
    (∀ n : Int, 99 ≤ n → p0Quantity (.int n) = 99) ∧
    (∀ n : Int, 1 ≤ n → n ≤ 99 → p0Quantity (.int n) = n) ∧
    (∀ (catalog : String → Option ProductP0) (currencyEnv : Option String)
       (items : List CartItem) (lis : List LineItemP0),
       buildLineItemsP0 catalog currencyEnv items = .ok lis →
       ∀ li ∈ lis, 1 ≤ li.quantity ∧ li.quantity ≤ 99) := by
  have hbounds : ∀ q : QtyInput, 1 ≤ p0Quantity q ∧ p0Quantity q ≤ 99 := by
    intro q
    cases q with
    | missing => exact ⟨by decide, by decide⟩
    | invalid => exact ⟨by decide, by decide⟩
    | int n =>
      unfold p0Quantity jsParseIntOr1
      simp only [max_def, min_def]
      split_ifs <;> omega
  refine ⟨hbounds, by decide, by decide, ?_, ?_, ?_, ?_⟩
  · intro n hn
    unfold p0Quantity jsParseIntOr1
    simp only [max_def, min_def]
    split_ifs <;> omega
  · intro n hn
    unfold p0Quantity jsParseIntOr1
    simp only [max_def, min_def]
    split_ifs <;> omega
  · intro n h1 h99
    unfold p0Quantity jsParseIntOr1
    simp only [max_def, min_def]
    split_ifs <;> omega
  · intro catalog currencyEnv items lis h li hli
    unfold buildLineItemsP0 at h
    by_cases he : items.isEmpty
    · rw [if_pos he] at h
      exact absurd h (by simp)
    · rw [if_neg he] at h
      obtain ⟨it, _, hq⟩ := mapBuildP0_quantity catalog currencyEnv items lis h li hli
      exact hq ▸ hbounds it.qty

/-- Witness for C2: the part_000 clamp evaluated on an over-limit, a
negative and an in-range quantity. -/
theorem p0_quantity_clamped_witness :
    (1 ≤ p0Quantity (.int 500) ∧ p0Quantity (.int 500) ≤ 99) ∧
    p0Quantity (.int (-7)) = 1 ∧
    p0Quantity (.int 500) = 99 ∧
    p0Quantity (.int 42) = 42 :=
  ⟨p0_quantity_clamped.1 (.int 500),
   p0_quantity_clamped.2.2.2.1 (-7) (by omega),
   p0_quantity_clamped.2.2.2.2.1 500 (by omega),
   p0_quantity_clamped.2.2.2.2.2.1 42 (by omega) (by omega)⟩

/-- The over-limit cart used to exhibit the missing upper clamp. -/
def c2Cart : List CartItem := [{ sku := "TEE-BLK", qty := .int 500, price := none }]

/-- C2 counterexample: the claim that every normalized quantity lands in
[1, 99] fails on the server.js checkout handler — a submitted quantity of
500 is accepted unchanged into the built line item (only the lower clamp
`Math.max(1, ...)` is applied), and 500 is outside [1, 99]. -/
theorem server_quantity_not_clamped :
    (createCheckoutSession demoCatalog "https://j-hinton.com" c2Cart).toOption.map
      (fun r => r.line_items.map LineItem.quantity) = some [500] ∧
    ¬ ((500 : Int) ≤ 99) := by
  exact ⟨by decide, by decide⟩

/-- Normal form of one escaped character: the entity it expands to, or
itself when it is none of the five replaced characters. -/
def escChar (c : Char) : List Char :=
  if c = '&' then "&amp;".data
  else if c = '<' then "&lt;".data
  else if c = '>' then "&gt;".data
  else if c = quotC then "&quot;".data
  else if c = aposC then "&#039;".data
  else [c]

theorem replaceAllC_append (t : Char) (r : List Char) :
    ∀ a b : List Char, replaceAllC t r (a ++ b) = replaceAllC t r a ++ replaceAllC t r b := by
  intro a b
  induction a with
  | nil => rfl
  | cons c rest ih => simp [replaceAllC, ih, List.append_assoc]

theorem escapeHtmlRaw_append (a b : List Char) :
    escapeHtmlRaw (a ++ b) = escapeHtmlRaw a ++ escapeHtmlRaw b := by
  simp [escapeHtmlRaw, replaceAllC_append]

theorem escapeHtmlRaw_single (c : Char) : escapeHtmlRaw [c] = escChar c := by
  by_cases h1 : c = '&'
  · subst h1; decide
  · by_cases h2 : c = '<'
    · subst h2; decide
    · by_cases h3 : c = '>'
      · subst h3; decide
      · by_cases h4 : c = quotC
        · subst h4; decide
        · by_cases h5 : c = aposC
          · subst h5; decide
          · simp [escapeHtmlRaw, replaceAllC, escChar, h1, h2, h3, h4, h5]

theorem escapeHtmlRaw_cons (c : Char) (l : List Char) :
    escapeHtmlRaw (c :: l) = escChar c ++ escapeHtmlRaw l := by
  have : (c :: l) = [c] ++ l := rfl
  rw [this, escapeHtmlRaw_append, escapeHtmlRaw_single]

/-- A character that must not appear raw in escaped output. -/
def badChar (c : Char) : Bool := c = '<' || c = '>' || c = quotC || c = aposC

theorem escChar_no_badChar (c : Char) : ∀ x ∈ escChar c, badChar x = false := by
  by_cases h1 : c = '&'
  · subst h1; decide
  · by_cases h2 : c = '<'
    · subst h2; decide
    · by_cases h3 : c = '>'
      · subst h3; decide
      · by_cases h4 : c = quotC
        · subst h4; decide
        · by_cases h5 : c = aposC
          · subst h5; decide
          · intro x hx
            simp only [escChar, if_neg h1, if_neg h2, if_neg h3, if_neg h4, if_neg h5,
              List.mem_singleton] at hx
            subst hx
            simp [badChar, h2, h3, h4, h5]

theorem escapeHtmlRaw_no_badChar : ∀ (l : List Char), ∀ c ∈ escapeHtmlRaw l, badChar c = false := by
  intro l
  induction l with
  | nil => intro c hc; cases hc
  | cons a rest ih =>
    intro c hc
    rw [escapeHtmlRaw_cons] at hc
    rcases List.mem_append.mp hc with h | h
    · exact escChar_no_badChar a c h
    · exact ih c h

/-- The tails of the five emitted entities (what must follow an
ampersand in escaped output). -/
def entityTails : List (List Char) :=
  ["amp;".data, "lt;".data, "gt;".data, "quot;".data, "#039;".data]

/-- Scanner: every ampersand in the list is immediately followed by the
tail of one of the five entities, i.e. every ampersand occurs only as the
start of one of the five emitted entities. -/
def ampsOk : List Char → Bool
  | [] => true
  | c :: rest =>
    (if c = '&' then entityTails.any (fun t => t.isPrefixOf rest) else true) && ampsOk rest


theorem ampsOk_escChar_append (c : Char) (r : List Char) :
    ampsOk (escChar c ++ r) = ampsOk r := by
  by_cases h1 : c = '&'
  · subst h1; simp [escChar, ampsOk, entityTails]
  · by_cases h2 : c = '<'
    · subst h2; simp [escChar, ampsOk, entityTails]
    · by_cases h3 : c = '>'
      · subst h3; simp [escChar, ampsOk, entityTails]
      · by_cases h4 : c = quotC
        · subst h4; simp [escChar, ampsOk, entityTails]
        · by_cases h5 : c = aposC
          · subst h5; simp [escChar, ampsOk, entityTails]
          · simp only [escChar, if_neg h1, if_neg h2, if_neg h3, if_neg h4, if_neg h5,
              List.singleton_append, ampsOk, if_neg h1, Bool.true_and]

theorem ampsOk_escapeHtmlRaw (l : List Char) : ampsOk (escapeHtmlRaw l) = true := by
  induction l with
  | nil => rfl
  | cons c rest ih => rw [escapeHtmlRaw_cons, ampsOk_escChar_append]; exact ih

/-! ## Claim C9: escapeHtml output discipline -/

/-- C9: for every input, escapeHtml returns a string with no raw left or
right angle bracket, double quote or apostrophe, and every ampersand in
the output occurs only as the start of one of the five emitted entities;
a null/undefined input yields the empty string. -/
theorem escapeHtml_output_sanitized :
    (∀ (s : Option String), ∀ c ∈ (escapeHtml s).data, badChar c = false) ∧
    (∀ s : Option String, ampsOk (escapeHtml s).data = true) ∧
    escapeHtml none = "" := by
  refine ⟨?_, ?_, rfl⟩
  · intro s c hc
    exact escapeHtmlRaw_no_badChar _ c hc
  · intro s
    exact ampsOk_escapeHtmlRaw _

/-- Witness for C9 on a concrete string containing every replaced
character: the amp of the emitted entity is accepted by the scanner and a
benign output character is not a bad character. -/
theorem escapeHtml_output_sanitized_witness :
    badChar 'T' = false ∧ ampsOk (escapeHtml (some "Tom & <Jerry> \x22q\x22")).data = true :=
  ⟨escapeHtml_output_sanitized.1 (some "Tom & <Jerry> \x22q\x22") 'T' (by decide),
   escapeHtml_output_sanitized.2.1 (some "Tom & <Jerry> \x22q\x22")⟩

/-- Scanner: every left angle bracket in the list is immediately followed
by d or a slash — true of HTML built only from div tags and escaped
text, and enough to exclude any script tag. -/
def ltOk : List Char → Bool
  | [] => true
  | c :: rest =>
    (if c = '<' then (match rest with | [] => false | d :: _ => d = 'd' || d = '/') else true)
      && ltOk rest

theorem ltOk_append : ∀ a b : List Char, ltOk a = true → ltOk b = true → ltOk (a ++ b) = true := by
  intro a
  induction a with
  | nil => intro b _ hb; exact hb
  | cons c rest ih =>
    intro b ha hb
    simp only [ltOk, Bool.and_eq_true] at ha
    obtain ⟨hc, hrest⟩ := ha
    rw [List.cons_append]
    simp only [ltOk, Bool.and_eq_true]
    refine ⟨?_, ih b hrest hb⟩
    by_cases h : c = '<'
    · rw [if_pos h] at hc ⊢
      cases rest with
      | nil => exact absurd hc (by simp)
      | cons d rest2 => rw [List.cons_append]; exact hc
    · rw [if_neg h]

theorem ltOk_of_no_lt : ∀ l : List Char, (∀ c ∈ l, c ≠ '<') → ltOk l = true := by
  intro l
  induction l with
  | nil => intro _; rfl
  | cons c rest ih =>
    intro h
    simp only [ltOk, Bool.and_eq_true]
    refine ⟨?_, ih (fun x hx => h x (List.mem_cons_of_mem c hx))⟩
    rw [if_neg (h c (List.mem_cons_self c rest))]

theorem escapeHtmlRaw_ltOk (l : List Char) : ltOk (escapeHtmlRaw l) = true := by
  refine ltOk_of_no_lt _ (fun c hc heq => ?_)
  have hbad := escapeHtmlRaw_no_badChar l c hc
  subst heq
  simp [badChar] at hbad

theorem ltOk_lineDivs : ∀ ls : List String, ltOk (lineDivsChars ls) = true := by
  intro ls
  induction ls with
  | nil => rfl
  | cons l rest ih =>
    exact ltOk_append _ (lineDivsChars rest)
      (ltOk_append _ "</div>".data
        (ltOk_append "<div>".data (escapeHtmlRaw l.data) (by decide) (escapeHtmlRaw_ltOk _))
        (by decide))
      ih

theorem ltOk_no_script : ∀ l : List Char, ltOk l = true → hasSubList "<script>".data l = false := by
  intro l
  induction l with
  | nil => intro _; rfl
  | cons c rest ih =>
    intro h
    simp only [ltOk, Bool.and_eq_true] at h
    obtain ⟨h1, h2⟩ := h
    simp only [hasSubList, Bool.or_eq_false_iff]
    refine ⟨?_, ih h2⟩
    by_cases hc : c = '<'
    · subst hc
      rw [if_pos rfl] at h1
      cases rest with
      | nil => rfl
      | cons d rest2 =>
        have hd : d = 'd' ∨ d = '/' := by simpa using h1
        rcases hd with rfl | rfl <;> rfl
    · have hne : ('<' == c) = false := by
        simp only [beq_eq_false_iff_ne, ne_eq]
        intro heq
        exact hc heq.symm
      show (('<' == c) && ['s', 'c', 'r', 'i', 'p', 't', '>'].isPrefixOf rest) = false
      rw [hne]
      rfl

/-! ## Claim C3: escaping in the rendered order-confirmation email -/

set_option maxRecDepth 100000

/-- C3 (amended): the line descriptions interpolated into the rendered
order-confirmation HTML pass through escapeHtml, so the order-details
block contains no script tag for any completed-session record whatsoever;
the shipping name and address components, however, are interpolated
without escaping (see the counterexample theorem). -/
theorem orderDetails_lines_escaped :
    ∀ s : CompletedSession, hasSubList "<script>".data (orderDetailsBlock s).data = false := by
  intro s
  have h : ltOk (lineDivsChars (s.line_items.map lineText)) = true := ltOk_lineDivs _
  exact ltOk_no_script _ h

/-- The completed-session record exhibiting the unescaped shipping name. -/
def c3Session : CompletedSession :=
  { customerDetailsEmail := some "jane@example.com", customerEmail := none,
    shipping_details := some
      { name := some "<script>alert(1)</script>",
        address := some
          { line1 := some "1 Main St", line2 := none, city := some "Austin",
            state := some "TX", postal_code := some "78701", country := some "US" } },
    line_items := [
      { description := some "Classic Tee", productName := none,
        productDescription := some "Size: M", quantity := some 2, unit_amount := some 2000 } ],
    amount_total := some 5295, amount_shipping := some 1295 }

/-- C3 counterexample: a completed-session record whose shipping name
contains a script tag renders to HTML that still contains that script tag
(the shipping name and address components are not escaped), while the
escaped form of the same name would have contained none — so the claim
that every free-text field is HTML-escaped before interpolation fails. -/
theorem render_shipName_unescaped :
    hasSubList "<script>".data
      (renderOrderHtml c3Session "ordersupport@j-hinton.com" 2026).data = true ∧
    hasSubList "<script>".data (escapeHtmlS "<script>alert(1)</script>").data = false := by
  exact ⟨by decide, by decide⟩

/-! ## Claim C4: server-side price authority and price-field non-interference -/

/-- buildServerLine never reads the client-submitted price field. -/
theorem buildServerLine_price_irrelevant (products : Catalog) (it : CartItem) (p : Option Int) :
    buildServerLine products { it with price := p } = buildServerLine products it := rfl

/-- buildServerLines is unchanged under any rewrite of the price fields. -/
theorem buildServerLines_price_irrelevant (products : Catalog) (f : CartItem → Option Int) :
    ∀ items, buildServerLines products (items.map (fun it => { it with price := f it })) =
      buildServerLines products items := by
  intro items
  induction items with
  | nil => rfl
  | cons it rest ih =>
    simp only [List.map_cons, buildServerLines, buildServerLine_price_irrelevant, ih]

/-- computeSubtotalCents is unchanged under any rewrite of the price fields. -/
theorem computeSubtotalCents_price_irrelevant (products : Catalog) (f : CartItem → Option Int) :
    ∀ items, computeSubtotalCents products (items.map (fun it => { it with price := f it })) =
      computeSubtotalCents products items := by
  intro items
  induction items with
  | nil => rfl
  | cons it rest ih =>
    cases hp : products (normalizeSku it.sku) <;>
      simp only [List.map_cons, computeSubtotalCents, hp, ih]

/-- In a successful server.js line-item build, the line item at every
index is priced from the catalog entry of the corresponding cart line. -/
theorem buildServerLines_priced_from_catalog (products : Catalog) :
    ∀ (items : List CartItem) (lis : List LineItem) (ms : List (String × String)),
      buildServerLines products items = .ok (lis, ms) →
      ∀ (i : Nat) (it : CartItem) (li : LineItem),
        items.get? i = some it → lis.get? i = some li →
        ∃ p, products (normalizeSku (jsTrim it.sku)) = some p ∧ p.price ≠ 0 ∧
          li.unit_amount = p.price ∧ li.currency = jsOrS p.currency "usd" ∧
          li.quantity = serverQty it.qty := by
  intro items
  induction items with
  | nil =>
    intro lis ms h i it li hit hli
    simp only [buildServerLines, Except.ok.injEq, Prod.mk.injEq] at h
    obtain ⟨h1, _⟩ := h
    subst h1
    cases hit
  | cons it0 rest ih =>
    intro lis ms h i it li hit hli
    simp only [buildServerLines] at h
    cases h1 : buildServerLine products it0
    case error => rw [h1] at h; exact absurd h (by simp)
    case ok r =>
    obtain ⟨li0, m0⟩ := r
    rw [h1] at h
    cases h2 : buildServerLines products rest
    case error => rw [h2] at h; exact absurd h (by simp)
    case ok r2 =>
    obtain ⟨lis2, ms2⟩ := r2
    rw [h2] at h
    simp only [Except.ok.injEq, Prod.mk.injEq] at h
    obtain ⟨hlis, _⟩ := h
    subst hlis
    cases i with
    | zero =>
      simp only [List.get?, Option.some.injEq] at hit hli
      subst hit
      subst hli
      -- extract the pricing facts from h1
      simp only [buildServerLine] at h1
      cases hc : products (normalizeSku (jsTrim it0.sku))
      case none => simp only [hc] at h1; exact absurd h1 (by simp)
      case some p =>
      simp only [hc] at h1
      by_cases hz : p.price = 0
      · rw [if_pos hz] at h1; exact absurd h1 (by simp)
      · rw [if_neg hz] at h1
        simp only [Except.ok.injEq, Prod.mk.injEq] at h1
        obtain ⟨hl, _⟩ := h1
        subst hl
        exact ⟨p, rfl, hz, rfl, rfl, rfl⟩
    | succ j =>
      simp only [List.get?] at hit hli
      exact ih lis2 ms2 h2 j it li hit hli

/-- buildLineItemP0 never reads the client-submitted price field. -/
theorem buildLineItemP0_price_irrelevant (catalog : String → Option ProductP0)
    (currencyEnv : Option String) (it : CartItem) (p : Option Int) :
    buildLineItemP0 catalog currencyEnv { it with price := p } =
      buildLineItemP0 catalog currencyEnv it := rfl

/-- A price-field rewrite does not change whether the cart is empty. -/
theorem isEmpty_map_price (f : CartItem → Option Int) (items : List CartItem) :
    (items.map (fun it => { it with price := f it })).isEmpty = items.isEmpty := by
  cases items <;> rfl

/-- mapBuildP0 is unchanged under any rewrite of the price fields. -/
theorem mapBuildP0_price_irrelevant (catalog : String → Option ProductP0)
    (currencyEnv : Option String) (f : CartItem → Option Int) :
    ∀ items, mapBuildP0 catalog currencyEnv (items.map (fun it => { it with price := f it })) =
      mapBuildP0 catalog currencyEnv items := by
  intro items
  induction items with
  | nil => rfl
  | cons it rest ih =>
    simp only [List.map_cons, mapBuildP0, buildLineItemP0_price_irrelevant, ih]

/-- C4: the unit price and currency of every built line item come
exclusively from the catalog entry matched by the base SKU, and the result
of session-request construction — in both server variants — is unchanged
under any variation of the client-submitted price field, which is never
read. -/
theorem session_price_authority :
    (∀ (products : Catalog) (siteUrl : String) (items : List CartItem)
       (f : CartItem → Option Int),
       createCheckoutSession products siteUrl (items.map (fun it => { it with price := f it })) =
         createCheckoutSession products siteUrl items) ∧
    (∀ (products : Catalog) (siteUrl : String) (items : List CartItem) (req : SessionRequest),
       createCheckoutSession products siteUrl items = .ok req →
       ∀ (i : Nat) (it : CartItem) (li : LineItem),
         items.get? i = some it → req.line_items.get? i = some li →
         ∃ p, products (normalizeSku (jsTrim it.sku)) = some p ∧
           li.unit_amount = p.price ∧
           ∀ c, p.currency = some c → ¬ c = "" → li.currency = c) ∧
    (∀ (catalog : String → Option ProductP0) (currencyEnv : Option String)
       (items : List CartItem) (f : CartItem → Option Int),
       buildLineItemsP0 catalog currencyEnv (items.map (fun it => { it with price := f it })) =
         buildLineItemsP0 catalog currencyEnv items) := by
  refine ⟨?_, ?_, ?_⟩
  · intro products siteUrl items f
    unfold createCheckoutSession
    rw [isEmpty_map_price, buildServerLines_price_irrelevant,
      computeSubtotalCents_price_irrelevant]
  · intro products siteUrl items req h i it li hit hli
    unfold createCheckoutSession at h
    by_cases he : items.isEmpty
    · rw [if_pos he] at h; exact absurd h (by simp)
    · rw [if_neg he] at h
      cases hb : buildServerLines products items
      · rw [hb] at h; exact absurd h (by simp)
      · rename_i r
        obtain ⟨lis, ms⟩ := r
        rw [hb] at h
        simp only [Except.ok.injEq] at h
        subst h
        obtain ⟨p, hp, _, hunit, hcur, _⟩ :=
          buildServerLines_priced_from_catalog products items lis ms hb i it li hit hli
        refine ⟨p, hp, hunit, ?_⟩
        intro c hcurc hcne
        rw [hcur, hcurc]
        simp only [jsOrS, if_neg hcne]
  · intro catalog currencyEnv items f
    unfold buildLineItemsP0
    rw [isEmpty_map_price, mapBuildP0_price_irrelevant]

/-- The cart line of the C4 witness: raw SKU with surrounding blanks and a
variant tag, and a client-submitted price of 1 cent. -/
def c4Item : CartItem := { sku := " TEE-BLK--L ", qty := .int 2, price := some 1 }

/-- The one-line witness cart. -/
def c4Cart : List CartItem := [c4Item]

/-- The line item the server builds for the witness cart: priced 2000 from
the catalog, not 1 from the client. -/
def c4Li : LineItem :=
  { currency := "usd", unit_amount := 2000, name := "Classic Tee Black",
    description := "Size: L", images := [], metaSku := "TEE-BLK",
    metaVariant := some "L", quantity := 2 }

/-- The full session request the server builds for the witness cart. -/
def c4Req : SessionRequest :=
  { line_items := [c4Li],
    shipping_options := [standardOption, expressOption],
    metadata := [("source", "jhinton-site"), ("size_TEE-BLK", "L")],
    success_url := "https://j-hinton.com/success.html?session_id=\x7bCHECKOUT_SESSION_ID\x7d",
    cancel_url := "https://j-hinton.com/cancel.html" }

/-- Witness for C4: on the demo catalog, rewriting the client price to one
million does not change the constructed session request, and the built
line item is priced 2000 with currency usd from the catalog entry. -/
theorem session_price_authority_witness :
    (createCheckoutSession demoCatalog "https://j-hinton.com"
        (c4Cart.map (fun it => { it with price := some 1000000 })) =
      createCheckoutSession demoCatalog "https://j-hinton.com" c4Cart) ∧
    (∃ p, demoCatalog (normalizeSku (jsTrim c4Item.sku)) = some p ∧
       c4Li.unit_amount = p.price ∧
       ∀ c, p.currency = some c → ¬ c = "" → c4Li.currency = c) :=
  ⟨session_price_authority.1 demoCatalog "https://j-hinton.com" c4Cart (fun _ => some 1000000),
   session_price_authority.2.1 demoCatalog "https://j-hinton.com" c4Cart c4Req (by rfl)
     0 c4Item c4Li (by rfl) (by rfl)⟩

/-! ## Claim C6: the subtotal/normalization asymmetry on unresolved SKUs -/

/-- buildServerLine rejects a cart line whose base SKU has no catalog
entry, naming it in the error. -/
theorem buildServerLine_unresolved (products : Catalog) (it : CartItem)
    (h : products (normalizeSku (jsTrim it.sku)) = none) :
    buildServerLine products it =
      .error ("Unknown or inactive product: " ++ normalizeSku (jsTrim it.sku)) := by
  simp only [buildServerLine, h]

/-- The item loop fails on the first unresolved SKU: with every earlier
line resolvable, the error names the unresolved base SKU. -/
theorem buildServerLines_first_unresolved (products : Catalog) :
    ∀ (pre : List CartItem) (it : CartItem) (post : List CartItem),
      (∀ j ∈ pre, ∃ r, buildServerLine products j = .ok r) →
      products (normalizeSku (jsTrim it.sku)) = none →
      buildServerLines products (pre ++ it :: post) =
        .error ("Unknown or inactive product: " ++ normalizeSku (jsTrim it.sku)) := by
  intro pre
  induction pre with
  | nil =>
    intro it post _ h
    simp only [List.nil_append, buildServerLines, buildServerLine_unresolved products it h]
  | cons a rest ih =>
    intro it post hpre h
    obtain ⟨r, hr⟩ := hpre a (List.mem_cons_self a rest)
    obtain ⟨li0, m0⟩ := r
    have hrec := ih it post (fun j hj => hpre j (List.mem_cons_of_mem a hj)) h
    simp only [List.cons_append, buildServerLines, List.append_eq, hr, hrec]

/-- A nonempty shape fact used to cross the empty-cart guard. -/
theorem isEmpty_append_cons (pre : List CartItem) (it : CartItem) (post : List CartItem) :
    (pre ++ it :: post).isEmpty = false := by
  cases pre <;> rfl

/-- C6: the asymmetry is present — computeSubtotalCents silently skips a
cart line whose base SKU is unresolved (the subtotal over the cart with
the line equals the subtotal without it), while session construction over
a cart containing an unresolved line (all earlier lines resolvable)
rejects the whole cart with the Unknown-or-inactive error. -/
theorem subtotal_skip_vs_build_reject :
    (∀ (products : Catalog) (it : CartItem) (pre post : List CartItem),
       products (normalizeSku it.sku) = none →
       computeSubtotalCents products (pre ++ it :: post) =
         computeSubtotalCents products (pre ++ post)) ∧
    (∀ (products : Catalog) (siteUrl : String) (pre : List CartItem) (it : CartItem)
       (post : List CartItem),
       (∀ j ∈ pre, ∃ r, buildServerLine products j = .ok r) →
       products (normalizeSku (jsTrim it.sku)) = none →
       createCheckoutSession products siteUrl (pre ++ it :: post) =
         .error ("Unknown or inactive product: " ++ normalizeSku (jsTrim it.sku))) := by
  constructor
  · intro products it pre post h
    induction pre with
    | nil => simp only [List.nil_append, computeSubtotalCents, h]
    | cons a rest ih =>
      cases hp : products (normalizeSku a.sku) <;>
        simp only [List.cons_append, computeSubtotalCents, List.append_eq, hp, ih]
  · intro products siteUrl pre it post hpre h
    unfold createCheckoutSession
    rw [isEmpty_append_cons, if_neg (by simp),
      buildServerLines_first_unresolved products pre it post hpre h]

/-- A cart line whose SKU has no entry in the demo catalog. -/
def c6Unknown : CartItem := { sku := "HOODIE-GRY", qty := .int 1, price := none }

/-- Witness for C6: appending an unknown-SKU line leaves the subtotal
unchanged while making the whole session construction fail. -/
theorem subtotal_skip_vs_build_reject_witness :
    computeSubtotalCents demoCatalog ([c4Item] ++ c6Unknown :: []) =
      computeSubtotalCents demoCatalog ([c4Item] ++ []) ∧
    createCheckoutSession demoCatalog "https://j-hinton.com" ([c4Item] ++ c6Unknown :: []) =
      .error ("Unknown or inactive product: " ++ normalizeSku (jsTrim c6Unknown.sku)) :=
  ⟨subtotal_skip_vs_build_reject.1 demoCatalog c6Unknown [c4Item] [] (by decide),
   subtotal_skip_vs_build_reject.2 demoCatalog "https://j-hinton.com" [c4Item] c6Unknown []
     (by
       intro j hj
       rcases List.mem_singleton.mp hj with rfl
       exact ⟨(c4Li, some ("size_TEE-BLK", "L")), by rfl⟩)
     (by decide)⟩

/-! ## Claim C7: SKU splitting on the first delimiter -/

/-- A successful boolean prefix test yields an append decomposition. -/
theorem isPrefixOf_exists : ∀ (d l : List Char), d.isPrefixOf l = true → ∃ t, l = d ++ t := by
  intro d
  induction d with
  | nil => intro l _; exact ⟨l, rfl⟩
  | cons a as ih =>
    intro l h
    cases l with
    | nil => simp [List.isPrefixOf] at h
    | cons b bs =>
      simp only [List.isPrefixOf, Bool.and_eq_true, beq_iff_eq] at h
      obtain ⟨rfl, h2⟩ := h
      obtain ⟨t, rfl⟩ := ih bs h2
      exact ⟨t, rfl⟩

/-- The boolean prefix test accepts its own append extension. -/
theorem isPrefixOf_append_self : ∀ (d t : List Char), d.isPrefixOf (d ++ t) = true := by
  intro d
  induction d with
  | nil => intro t; cases t <;> rfl
  | cons a as ih => intro t; simp [List.isPrefixOf, ih]

/-- A successful first-occurrence split reassembles to the input. -/
theorem splitFirstAux_append (d : List Char) :
    ∀ (l pre post : List Char), splitFirstAux d l = some (pre, post) → l = pre ++ d ++ post := by
  intro l
  induction l with
  | nil => intro pre post h; exact absurd h (by simp [splitFirstAux])
  | cons c rest ih =>
    intro pre post h
    simp only [splitFirstAux] at h
    by_cases hp : d.isPrefixOf (c :: rest)
    · rw [if_pos hp] at h
      simp only [Option.some.injEq, Prod.mk.injEq] at h
      obtain ⟨h1, h2⟩ := h
      subst h1
      subst h2
      obtain ⟨t, ht⟩ := isPrefixOf_exists d (c :: rest) hp
      rw [List.nil_append, ht, List.drop_left]
    · rw [if_neg hp] at h
      cases hrec : splitFirstAux d rest
      · rw [hrec] at h; exact absurd h (by simp)
      · rename_i r
        obtain ⟨pre2, post2⟩ := r
        rw [hrec] at h
        simp only [Option.some.injEq, Prod.mk.injEq] at h
        obtain ⟨h1, h2⟩ := h
        subst h1
        subst h2
        have hr := ih pre2 post2 hrec
        rw [List.cons_append, List.cons_append, ← hr]


/-- When the scan finds no occurrence, no append decomposition around the
delimiter exists. -/
theorem splitFirstAux_none (d : List Char) (hd : d ≠ []) :
    ∀ l : List Char, splitFirstAux d l = none → ¬ ∃ p q, l = p ++ d ++ q := by
  intro l
  induction l with
  | nil =>
    intro _ hex
    obtain ⟨p, q, hpq⟩ := hex
    cases p
    · rw [List.nil_append] at hpq
      cases d
      · exact hd rfl
      · exact absurd hpq.symm (by simp)
    · exact absurd hpq.symm (by simp)
  | cons c rest ih =>
    intro h hex
    obtain ⟨p, q, hpq⟩ := hex
    simp only [splitFirstAux] at h
    by_cases hp : d.isPrefixOf (c :: rest)
    · rw [if_pos hp] at h; exact absurd h (by simp)
    · rw [if_neg hp] at h
      cases hrec : splitFirstAux d rest
      · cases p with
        | nil =>
          rw [List.nil_append] at hpq
          exact hp (hpq ▸ isPrefixOf_append_self d q)
        | cons c2 p2 =>
          rw [List.cons_append, List.cons_append] at hpq
          cases hpq
          exact ih hrec ⟨p2, q, rfl⟩
      · rw [hrec] at h; exact absurd h (by simp)

/-- C7: normalization splits the raw SKU at the first occurrence of the
"--" delimiter: "TEE-BLK--L" yields base "TEE-BLK" and variant "L"; the
variant is upper-cased; later delimiters stay inside the variant; a raw
SKU in which the delimiter does not occur yields an empty variant; and
whenever the split succeeds, the pieces reassemble to the input, the
variant is the trimmed upper-cased remainder and the base is the trimmed
prefix. -/
theorem sku_split_first_delimiter :
    normalizeSku "TEE-BLK--L" = "TEE-BLK" ∧
    extractVariant "TEE-BLK--L" = "L" ∧
    extractVariant "TEE-BLK--l" = "L" ∧
    normalizeSku "A--B--C" = "A" ∧
    extractVariant "A--B--C" = "B--C" ∧
    (∀ s : String, (¬ ∃ p q, s.data = p ++ dashDash ++ q) → extractVariant s = "") ∧
    (∀ (s : String) (pre post : List Char),
       splitFirstAux dashDash s.data = some (pre, post) →
       s.data = pre ++ dashDash ++ post ∧
       extractVariant s = ⟨(jsTrimC post).map Char.toUpper⟩ ∧
       (¬ s = "" → normalizeSku s = ⟨jsTrimC pre⟩)) := by
  refine ⟨by decide, by decide, by decide, by decide, by decide, ?_, ?_⟩
  · intro s hno
    unfold extractVariant
    cases hsp : splitFirstAux dashDash s.data
    · rfl
    · rename_i r
      obtain ⟨pre, post⟩ := r
      exact absurd ⟨pre, post, splitFirstAux_append dashDash s.data pre post hsp⟩ hno
  · intro s pre post hsp
    refine ⟨splitFirstAux_append dashDash s.data pre post hsp, ?_, ?_⟩
    · unfold extractVariant
      rw [hsp]
    · intro hs
      unfold normalizeSku beforeFirst
      rw [if_neg hs, hsp]

/-- Witness for C7: the delimiter-free SKU PLAIN-SKU has an empty variant,
and the split of "TEE-BLK--L" reassembles and normalizes as claimed. -/
theorem sku_split_first_delimiter_witness :
    extractVariant "PLAIN-SKU" = "" ∧
    "TEE-BLK--L".data = "TEE-BLK".data ++ dashDash ++ "L".data ∧
    normalizeSku "TEE-BLK--L" = ⟨jsTrimC "TEE-BLK".data⟩ :=
  ⟨sku_split_first_delimiter.2.2.2.2.2.1 "PLAIN-SKU"
     (splitFirstAux_none dashDash (by decide) "PLAIN-SKU".data (by decide)),
   (sku_split_first_delimiter.2.2.2.2.2.2 "TEE-BLK--L" "TEE-BLK".data "L".data (by decide)).1,
   (sku_split_first_delimiter.2.2.2.2.2.2 "TEE-BLK--L" "TEE-BLK".data "L".data
      (by decide)).2.2 (by decide)⟩

/-! ## Claim C10: subtotal agrees with the built line items

The handler trims the raw SKU before normalizing while
computeSubtotalCents normalizes the untrimmed SKU; the lemmas below show
trimming commutes with taking the prefix before the first delimiter, so
both look up the same catalog key. -/

/-- The empty list is a boolean prefix of everything. -/
theorem nil_isPrefixOf (l : List Char) : List.isPrefixOf [] l = true := by
  cases l <;> rfl

/-- A head mismatch refutes the boolean prefix test. -/
theorem not_prefixOf_of_head (dh : Char) (dt rest : List Char) (c : Char) (h : ¬ dh = c) :
    (dh :: dt).isPrefixOf (c :: rest) = false := by
  have hb : (dh == c) = false := beq_eq_false_iff_ne.mpr h
  simp [List.isPrefixOf, hb]

/-- With the delimiter present at the head, the prefix before it is empty. -/
theorem beforeFirst_cons_pos (d : List Char) (c : Char) (rest : List Char)
    (h : d.isPrefixOf (c :: rest) = true) : beforeFirst d (c :: rest) = [] := by
  unfold beforeFirst splitFirstAux
  rw [if_pos h]

/-- With no delimiter at the head, the head passes into the prefix. -/
theorem beforeFirst_cons_neg (d : List Char) (c : Char) (rest : List Char)
    (h : d.isPrefixOf (c :: rest) = false) :
    beforeFirst d (c :: rest) = c :: beforeFirst d rest := by
  cases hsp : splitFirstAux d rest
  · simp [beforeFirst, splitFirstAux, h, hsp]
  · rename_i r
    obtain ⟨pre, post⟩ := r
    simp [beforeFirst, splitFirstAux, h, hsp]

/-- Removing leading whitespace commutes with taking the prefix before the
first SKU delimiter (the delimiter starts with a non-whitespace dash). -/
theorem beforeFirst_dropWhile :
    ∀ l : List Char,
      beforeFirst dashDash (l.dropWhile jsWs) = (beforeFirst dashDash l).dropWhile jsWs := by
  intro l
  induction l with
  | nil => rfl
  | cons c rest ih =>
    cases hpc : jsWs c
    · -- non-whitespace head: dropWhile keeps the list
      rw [List.dropWhile_cons_of_neg (by simp [hpc])]
      cases hp : dashDash.isPrefixOf (c :: rest)
      · rw [beforeFirst_cons_neg _ _ _ hp, List.dropWhile_cons_of_neg (by simp [hpc])]
      · rw [beforeFirst_cons_pos _ _ _ hp]
        rfl
    · -- whitespace head: it is dropped and cannot start the delimiter
      have hne : ¬ '-' = c := by
        intro he
        rw [← he] at hpc
        exact absurd hpc (by decide)
      have hnp : dashDash.isPrefixOf (c :: rest) = false :=
        not_prefixOf_of_head '-' ['-'] rest c hne
      rw [List.dropWhile_cons_of_pos (by simp [hpc]), beforeFirst_cons_neg _ _ _ hnp,
        List.dropWhile_cons_of_pos (by simp [hpc])]
      exact ih

/-- A trailing all-whitespace block does not change the right trim. -/
theorem trimRightC_append_ws (u w : List Char) (hw : ∀ c ∈ w, jsWs c = true) :
    trimRightC (u ++ w) = trimRightC u := by
  unfold trimRightC
  rw [List.reverse_append,
    List.dropWhile_append_of_pos (fun a ha => hw a (List.mem_reverse.mp ha))]

/-- Every list splits into its right trim and a trailing whitespace block. -/
theorem trimRightC_decomp (l : List Char) :
    ∃ w, (∀ c ∈ w, jsWs c = true) ∧ l = trimRightC l ++ w := by
  refine ⟨(l.reverse.takeWhile jsWs).reverse, ?_, ?_⟩
  · intro c hc
    exact List.mem_takeWhile_imp (List.mem_reverse.mp hc)
  · calc l = l.reverse.reverse := (List.reverse_reverse l).symm
      _ = (l.reverse.takeWhile jsWs ++ l.reverse.dropWhile jsWs).reverse := by
          rw [List.takeWhile_append_dropWhile]
      _ = (l.reverse.dropWhile jsWs).reverse ++ (l.reverse.takeWhile jsWs).reverse :=
          List.reverse_append _ _
      _ = trimRightC l ++ (l.reverse.takeWhile jsWs).reverse := rfl

/-- Unfolding of the right trim over a cons cell. -/
theorem trimRightC_cons (c : Char) (A : List Char) :
    trimRightC (c :: A) =
      if trimRightC A = [] then (if jsWs c = true then [] else [c]) else c :: trimRightC A := by
  unfold trimRightC
  rw [List.reverse_cons, List.dropWhile_append]
  by_cases he : (A.reverse.dropWhile jsWs).isEmpty = true
  · have h2 : A.reverse.dropWhile jsWs = [] := List.isEmpty_iff.mp he
    rw [if_pos he, if_pos (by rw [h2]; rfl)]
    cases hc : jsWs c
    · rw [List.dropWhile_cons_of_neg (by simp [hc]), if_neg (by simp)]
      rfl
    · rw [List.dropWhile_cons_of_pos (by simp [hc]), if_pos rfl]
      rfl
  · have h2 : ¬ A.reverse.dropWhile jsWs = [] := fun hnil => he (by rw [hnil]; rfl)
    rw [if_neg he, if_neg (by
      intro hnil
      apply h2
      have h3 := congrArg List.reverse hnil
      rwa [List.reverse_reverse] at h3)]
    rw [List.reverse_append]
    rfl

/-- Right trims agree after consing the same head. -/
theorem trimRightC_cons_congr (c : Char) {A B : List Char} (h : trimRightC A = trimRightC B) :
    trimRightC (c :: A) = trimRightC (c :: B) := by
  rw [trimRightC_cons, trimRightC_cons, h]

/-- A trailing all-whitespace block cannot affect a prefix test for an
all-non-whitespace pattern. -/
theorem prefixOf_append_ws :
    ∀ d : List Char, (∀ c ∈ d, jsWs c = false) →
      ∀ u w : List Char, (∀ c ∈ w, jsWs c = true) →
        d.isPrefixOf (u ++ w) = d.isPrefixOf u := by
  intro d
  induction d with
  | nil => intro _ u w _; rw [nil_isPrefixOf, nil_isPrefixOf]
  | cons a as ih =>
    intro hd u w hw
    cases u with
    | nil =>
      rw [List.nil_append]
      have hpa : jsWs a = false := hd a (List.mem_cons_self a as)
      cases w with
      | nil => rfl
      | cons c w2 =>
        have hpc : jsWs c = true := hw c (List.mem_cons_self c w2)
        have hne : ¬ a = c := by
          intro he
          rw [he, hpc] at hpa
          exact absurd hpa (by decide)
        rw [not_prefixOf_of_head a as w2 c hne]
        rfl
    | cons b u2 =>
      rw [List.cons_append]
      show ((a == b) && as.isPrefixOf (u2 ++ w)) = ((a == b) && as.isPrefixOf u2)
      rw [ih (fun x hx => hd x (List.mem_cons_of_mem a hx)) u2 w hw]

/-- The SKU delimiter never occurs inside an all-whitespace block. -/
theorem splitFirstAux_ws_none :
    ∀ w : List Char, (∀ c ∈ w, jsWs c = true) → splitFirstAux dashDash w = none := by
  intro w
  induction w with
  | nil => intro _; rfl
  | cons c w2 ih =>
    intro hw
    have hpc : jsWs c = true := hw c (List.mem_cons_self c w2)
    have hne : ¬ '-' = c := by
      intro he
      rw [← he] at hpc
      exact absurd hpc (by decide)
    have hnp : dashDash.isPrefixOf (c :: w2) = false :=
      not_prefixOf_of_head '-' ['-'] w2 c hne
    have hrec := ih (fun x hx => hw x (List.mem_cons_of_mem c hx))
    simp [splitFirstAux, hnp, hrec]

/-- The right trim of an all-whitespace block is empty. -/
theorem trimRightC_ws (w : List Char) (hw : ∀ c ∈ w, jsWs c = true) : trimRightC w = [] := by
  have h := trimRightC_append_ws [] w hw
  rw [List.nil_append] at h
  exact h

/-- A trailing all-whitespace block does not change the right trim of the
prefix before the first delimiter. -/
theorem trimRight_beforeFirst_append_ws :
    ∀ u w : List Char, (∀ c ∈ w, jsWs c = true) →
      trimRightC (beforeFirst dashDash (u ++ w)) = trimRightC (beforeFirst dashDash u) := by
  intro u
  induction u with
  | nil =>
    intro w hw
    rw [List.nil_append]
    have h1 : beforeFirst dashDash w = w := by
      unfold beforeFirst
      rw [splitFirstAux_ws_none w hw]
    rw [h1, trimRightC_ws w hw]
    rfl
  | cons c u2 ih =>
    intro w hw
    rw [List.cons_append]
    have hsame : dashDash.isPrefixOf (c :: (u2 ++ w)) = dashDash.isPrefixOf (c :: u2) := by
      have h := prefixOf_append_ws dashDash (by decide) (c :: u2) w hw
      rwa [List.cons_append] at h
    cases hp : dashDash.isPrefixOf (c :: u2)
    · rw [beforeFirst_cons_neg _ _ _ (by rw [hsame, hp]),
        beforeFirst_cons_neg _ _ _ hp]
      exact trimRightC_cons_congr c (ih w hw)
    · rw [beforeFirst_cons_pos _ _ _ (by rw [hsame, hp]),
        beforeFirst_cons_pos _ _ _ hp]

/-- Dropping leading whitespace is idempotent. -/
theorem trimLeftC_idem (l : List Char) : trimLeftC (trimLeftC l) = trimLeftC l := by
  unfold trimLeftC
  exact List.dropWhile_idempotent _ _

/-- Left-trim phrasing of the commutation of trimming with the prefix
before the first delimiter. -/
theorem beforeFirst_trimLeftC (l : List Char) :
    beforeFirst dashDash (trimLeftC l) = trimLeftC (beforeFirst dashDash l) :=
  beforeFirst_dropWhile l

/-- dropWhile never lengthens a list. -/
theorem dropWhile_length_le (p : Char → Bool) :
    ∀ l : List Char, (l.dropWhile p).length ≤ l.length := by
  intro l
  induction l with
  | nil => exact Nat.le_refl _
  | cons c rest ih =>
    cases hc : p c
    · rw [List.dropWhile_cons_of_neg (by simp [hc])]
    · rw [List.dropWhile_cons_of_pos (by simp [hc])]
      exact Nat.le_trans ih (Nat.le_succ _)

/-- A list with no leading whitespace keeps that property after the right
trim. -/
theorem trimLeftC_trimRightC (t : List Char) (ht : trimLeftC t = t) :
    trimLeftC (trimRightC t) = trimRightC t := by
  obtain ⟨w, hw, hdec⟩ := trimRightC_decomp t
  have h2 : (trimRightC t ++ w).dropWhile jsWs = trimRightC t ++ w := by
    rw [← hdec]
    exact ht
  rw [List.dropWhile_append] at h2
  by_cases he : ((trimRightC t).dropWhile jsWs).isEmpty = true
  · rw [if_pos he] at h2
    have hlen := congrArg List.length h2
    rw [List.length_append] at hlen
    have hle := dropWhile_length_le jsWs w
    have hz : (trimRightC t).length = 0 := by omega
    have hnil : trimRightC t = [] := List.length_eq_zero.mp hz
    rw [hnil]
    rfl
  · rw [if_neg he] at h2
    exact List.append_cancel_right h2

/-- Trimming commutes with taking the prefix before the first delimiter:
the core lemma equating the two catalog keys. -/
theorem jsTrimC_beforeFirst (l : List Char) :
    jsTrimC (beforeFirst dashDash (jsTrimC l)) = jsTrimC (beforeFirst dashDash l) := by
  obtain ⟨w, hw, hdec⟩ := trimRightC_decomp (trimLeftC l)
  calc jsTrimC (beforeFirst dashDash (jsTrimC l))
      = trimRightC (trimLeftC (beforeFirst dashDash (trimRightC (trimLeftC l)))) := rfl
    _ = trimRightC (beforeFirst dashDash (trimLeftC (trimRightC (trimLeftC l)))) := by
        rw [beforeFirst_trimLeftC]
    _ = trimRightC (beforeFirst dashDash (trimRightC (trimLeftC l))) := by
        rw [trimLeftC_trimRightC (trimLeftC l) (trimLeftC_idem l)]
    _ = trimRightC (beforeFirst dashDash (trimRightC (trimLeftC l) ++ w)) :=
        (trimRight_beforeFirst_append_ws (trimRightC (trimLeftC l)) w hw).symm
    _ = trimRightC (beforeFirst dashDash (trimLeftC l)) := by rw [← hdec]
    _ = trimRightC (trimLeftC (beforeFirst dashDash l)) := by rw [beforeFirst_trimLeftC]
    _ = jsTrimC (beforeFirst dashDash l) := rfl

/-- Trimming the raw SKU first does not change the normalized base SKU:
the handler and the subtotal computation look up the same catalog key. -/
theorem normalizeSku_jsTrim (s : String) : normalizeSku (jsTrim s) = normalizeSku s := by
  by_cases h0 : s = ""
  · subst h0
    rfl
  · have hdata : (jsTrim s).data = jsTrimC s.data := rfl
    by_cases h1 : jsTrim s = ""
    · simp only [normalizeSku, if_pos h1, if_neg h0]
      have hnil : jsTrimC s.data = [] := by
        rw [← hdata, h1]
      have hmain := jsTrimC_beforeFirst s.data
      rw [hnil] at hmain
      have hempty : jsTrimC (beforeFirst dashDash ([] : List Char)) = [] := rfl
      rw [hempty] at hmain
      exact congrArg String.mk hmain
    · simp only [normalizeSku, if_neg h1, if_neg h0]
      exact congrArg String.mk (jsTrimC_beforeFirst s.data)

/-- Over a successfully built cart, the subtotal computed from the raw
items equals the sum of unit_amount times quantity over the line items. -/
theorem buildServerLines_subtotal (products : Catalog) :
    ∀ (items : List CartItem) (lis : List LineItem) (ms : List (String × String)),
      buildServerLines products items = .ok (lis, ms) →
      computeSubtotalCents products items = sumLineTotals lis := by
  intro items
  induction items with
  | nil =>
    intro lis ms h
    simp only [buildServerLines, Except.ok.injEq, Prod.mk.injEq] at h
    obtain ⟨h1, _⟩ := h
    subst h1
    rfl
  | cons it0 rest ih =>
    intro lis ms h
    simp only [buildServerLines] at h
    cases h1 : buildServerLine products it0
    case error => rw [h1] at h; exact absurd h (by simp)
    case ok r =>
    obtain ⟨li0, m0⟩ := r
    rw [h1] at h
    cases h2 : buildServerLines products rest
    case error => rw [h2] at h; exact absurd h (by simp)
    case ok r2 =>
    obtain ⟨lis2, ms2⟩ := r2
    rw [h2] at h
    simp only [Except.ok.injEq, Prod.mk.injEq] at h
    obtain ⟨hlis, _⟩ := h
    subst hlis
    simp only [buildServerLine] at h1
    cases hc : products (normalizeSku (jsTrim it0.sku))
    case none =>
      simp only [hc] at h1
      exact absurd h1 (by simp)
    case some p =>
    simp only [hc] at h1
    by_cases hz : p.price = 0
    · rw [if_pos hz] at h1; exact absurd h1 (by simp)
    · rw [if_neg hz] at h1
      simp only [Except.ok.injEq, Prod.mk.injEq] at h1
      obtain ⟨hl, _⟩ := h1
      subst hl
      have hc2 : products (normalizeSku it0.sku) = some p := by
        rw [← normalizeSku_jsTrim it0.sku]
        exact hc
      simp only [computeSubtotalCents, hc2, sumLineTotals, jsNumberOr0, if_neg hz]
      rw [ih lis2 ms2 h2]

/-- C10: for every cart the server.js checkout handler accepts, the
subtotal that decides free-shipping eligibility equals the sum of
unit_amount times quantity over the built line items, and the session's
shipping options are exactly those derived from that sum. -/
theorem subtotal_agrees_with_line_items :
    ∀ (products : Catalog) (siteUrl : String) (items : List CartItem) (req : SessionRequest),
      createCheckoutSession products siteUrl items = .ok req →
      computeSubtotalCents products items = sumLineTotals req.line_items ∧
      req.shipping_options = buildShippingOptions (sumLineTotals req.line_items) := by
  intro products siteUrl items req h
  unfold createCheckoutSession at h
  by_cases he : items.isEmpty
  · rw [if_pos he] at h; exact absurd h (by simp)
  · rw [if_neg he] at h
    cases hb : buildServerLines products items
    · rw [hb] at h; exact absurd h (by simp)
    · rename_i r
      obtain ⟨lis, ms⟩ := r
      rw [hb] at h
      simp only [Except.ok.injEq] at h
      subst h
      have hsub := buildServerLines_subtotal products items lis ms hb
      exact ⟨hsub, by rw [← hsub]⟩

/-- Witness for C10 on the demo cart: the subtotal 4000 equals the line
total 2000 times 2 and the shipping options are the two paid tiers. -/
theorem subtotal_agrees_with_line_items_witness :
    computeSubtotalCents demoCatalog c4Cart = sumLineTotals c4Req.line_items ∧
    c4Req.shipping_options = buildShippingOptions (sumLineTotals c4Req.line_items) :=
  subtotal_agrees_with_line_items demoCatalog "https://j-hinton.com" c4Cart c4Req (by rfl)
